import Mathlib

/-!
Verification of the temporal windowing engine and bounds calculator of the
`TimestampedGeoJson` plugin (`folium/plugins/timestamped_geo_json.py`).

The plugin's core logic lives in two places:
* the JavaScript methods `_getFeatureTimes` and `_getFeatureBetweenDates`
  embedded in the template (lines 100-176 of the source), modelled here over
  integer epoch-milliseconds (`Int`) and an explicit timestamp-cache slot;
* the Python methods `__init__` (embed flag) and `_get_self_bounds`
  (lines 222-323 of the source).

JavaScript object mutation is modelled by explicit state passing: a function
that mutates its feature argument returns the post-state feature alongside its
result.  The in-place aliasing of `feature.featureTimes` with the matched
timestamp property array (the assignment `feature.featureTimes =
feature.properties.coordTimes` followed by element writes) is modelled by
writing the parsed values back into the matched property slot.
-/

/-- A raw timestamp value as found in a feature's properties: either an
integer epoch-ms value or a date string (parsed by `Date.parse`). -/
inductive TimeVal where
  | num (n : Int)
  | str (s : String)
deriving DecidableEq, Repr

/-- The timestamp-bearing properties recognised by `_getFeatureTimes`
(lines 104-111 of the source).  `none` models an absent key
(`hasOwnProperty` false). -/
structure Props where
  coordTimes : Option (List TimeVal)
  times : Option (List TimeVal)
  linestringTimestamps : Option (List TimeVal)
  time : Option TimeVal
deriving DecidableEq, Repr

/-- A GeoJSON coordinate tree: a leaf is a number, a node is an array.
A point is a node of leaves `[lon, lat]`; a LineString's coordinates are a
list of such nodes; deeper nestings model (Multi)Polygon coordinates. -/
inductive CoordTree where
  | leaf (n : Int)
  | node (l : List CoordTree)

/-- A feature's geometry: a type tag and the coordinates array. -/
structure Geometry where
  type : String
  coordinates : List CoordTree

/-- A GeoJSON feature as seen by the layer code: the memoised `featureTimes`
slot (absent until `_getFeatureTimes` first runs), the optional properties
object, and the geometry. -/
structure Feature where
  featureTimes : Option (List Int)
  properties : Option Props
  geometry : Geometry

/-- String-to-ms conversion step of `_getFeatureTimes` (lines 116-122):
numbers pass through, strings are trimmed and handed to `Date.parse`,
modelled by the parameter `dateParse`. -/
def parseTime (dateParse : String → Int) : TimeVal → Int
  | .num n => n
  | .str s => dateParse s.trim

/-- Translation of `_getFeatureTimes` (source lines 100-125).  Returns the
resolved time sequence together with the post-state of the (mutated) feature.
Resolution order: cached `featureTimes`, else `coordTimes`, `times`,
`linestringTimestamps`, `time` (wrapped in a singleton array), else `[]`.
Because `feature.featureTimes` aliases the matched property array, the string
to ms conversion loop also rewrites that property's entries in place; the
`time` branch builds a fresh one-element array, so there no property slot is
rewritten. -/
def getFeatureTimes (dateParse : String → Int) (f : Feature) : List Int × Feature :=
  match f.featureTimes with
  | some ts => (ts, f)
  | none =>
    match f.properties with
    | none => ([], { f with featureTimes := some [] })
    | some p =>
      match p.coordTimes with
      | some raw =>
        let ts := raw.map (parseTime dateParse)
        (ts,
         { f with
           featureTimes := some ts
           properties := some { p with coordTimes := some (ts.map TimeVal.num) } })
      | none =>
        match p.times with
        | some raw =>
          let ts := raw.map (parseTime dateParse)
          (ts,
           { f with
             featureTimes := some ts
             properties := some { p with times := some (ts.map TimeVal.num) } })
        | none =>
          match p.linestringTimestamps with
          | some raw =>
            let ts := raw.map (parseTime dateParse)
            (ts,
             { f with
               featureTimes := some ts
               properties :=
                 some { p with linestringTimestamps := some (ts.map TimeVal.num) } })
          | none =>
            match p.time with
            | some tv =>
              ([parseTime dateParse tv], { f with featureTimes := some [parseTime dateParse tv] })
            | none => ([], { f with featureTimes := some [] })

/-- The resolved time sequence of a feature (first component of
`getFeatureTimes`). -/
def pureFeatureTimes (dateParse : String → Int) (f : Feature) : List Int :=
  (getFeatureTimes dateParse f).1

/-- The last element of a time sequence (`featureTimes[l - 1]` in the
source, which only evaluates it when `l ≥ 1`), defaulting to `0` on the
empty list. -/
def lastD : List Int → Int
  | [] => 0
  | [t] => t
  | _ :: t :: ts => lastD (t :: ts)

/-- The first element of a time sequence (`featureTimes[0]` in the source,
which only evaluates it when `l ≥ 1`), defaulting to `0` on the empty
list. -/
def headD0 : List Int → Int
  | [] => 0
  | t :: _ => t

/-- The `minTime` substitution at the top of `_getFeatureBetweenDates`
(source lines 128-130): a zero lower bound is replaced by the sentinel
`-999999999999` so that dates before 01/01/1970 stay visible. -/
def effectiveMin (minTime : Int) : Int :=
  if minTime = 0 then -999999999999 else minTime

/-- The scan loop of `_getFeatureBetweenDates` (source lines 145-154):
walks the time sequence from index `i` carrying the current `index_min`
candidate `im`; sets `index_min` at the first time strictly greater than
`minT`, and stops with `index_max` at the first time strictly greater than
`maxT`.  Returns the final `(index_min, index_max)` pair, `none` meaning the
JavaScript `null`. -/
def scanLoop (minT maxT : Int) : Nat → Option Nat → List Int → Option Nat × Option Nat
  | _, im, [] => (im, none)
  | i, im, t :: ts =>
    let im' := if im = none ∧ minT < t then some i else im
    if maxT < t then (im', some i)
    else scanLoop minT maxT (i + 1) im' ts

/-- Index computation of `_getFeatureBetweenDates` (source lines 136-161),
for a non-empty time sequence that is not entirely outside the window: the
loop runs only when `times[l-1] > minTime`; a `null` `index_min` defaults to
`0` and a `null` `index_max` defaults to the sequence length. -/
def computeIndices (T : List Int) (minT maxT : Int) : Nat × Nat :=
  let r := if minT < lastD T then scanLoop minT maxT 0 none T else (none, none)
  (r.1.getD 0, r.2.getD T.length)

/-- JavaScript's `Array.prototype.slice(i, j)` for the nonnegative indices
produced by the scan loop. -/
def jsSlice (l : List CoordTree) (i j : Nat) : List CoordTree :=
  (l.drop i).take (j - i)

/-- Result of `_getFeatureBetweenDates`: the JavaScript `null`, the input
feature object itself (returned when the time sequence is empty), or a newly
built feature object. -/
inductive FilterResult where
  | null
  | original
  | fresh (f : Feature)

/-- Translation of `_getFeatureBetweenDates` (source lines 126-176).  The
outer `Option` models runtime failure: reading `coordinates[0].length` when
the coordinates array is empty evaluates `undefined.length` and throws, which
is modelled as `none`.  A normal return pairs the result with the post-state
of the input feature (mutated by the `_getFeatureTimes` call). -/
def getFeatureBetweenDates (dateParse : String → Int) (feature : Feature)
    (minTime maxTime : Int) : Option (FilterResult × Feature) :=
  let minT := effectiveMin minTime
  let r := getFeatureTimes dateParse feature
  let featureTimes := r.1
  let f := r.2
  if featureTimes.length = 0 then some (.original, f)
  else if maxTime < headD0 featureTimes ∨ lastD featureTimes < minT then
    some (.null, f)
  else
    let idx := computeIndices featureTimes minT maxTime
    match f.geometry.coordinates.head? with
    | none => none
    | some c =>
      let newCoords :=
        match c with
        | .node l =>
          if l.length ≠ 0 then jsSlice f.geometry.coordinates idx.1 idx.2
          else f.geometry.coordinates
        | .leaf _ => f.geometry.coordinates
      some (.fresh { featureTimes := none, properties := f.properties,
                     geometry := { type := f.geometry.type, coordinates := newCoords } }, f)

/-- Coordinates of the freshly built feature returned by
`getFeatureBetweenDates`, when there is one. -/
def filteredCoords (dateParse : String → Int) (f : Feature) (minTime maxTime : Int) :
    Option (List CoordTree) :=
  match getFeatureBetweenDates dateParse f minTime maxTime with
  | some (.fresh g, _) => some g.geometry.coordinates
  | _ => none

/-- The raw timestamp array whose storage is aliased by the `featureTimes`
cache: the first match among `coordTimes`, `times`, `linestringTimestamps`.
The `time` branch and the no-property branches build fresh arrays, so they
alias nothing. -/
def selectedRaw (f : Feature) : List TimeVal :=
  match f.properties with
  | none => []
  | some p =>
    match p.coordTimes with
    | some raw => raw
    | none =>
      match p.times with
      | some raw => raw
      | none =>
        match p.linestringTimestamps with
        | some raw => raw
        | none => []

/-- Whether a raw timestamp value is a string (and hence rewritten in place
by the conversion loop of `_getFeatureTimes`). -/
def TimeVal.isStr : TimeVal → Bool
  | .num _ => false
  | .str _ => true

/-- The properties object after `_getFeatureTimes` has run on a feature with
an unset cache: the matched array-valued slot is rewritten in place with the
parsed (numeric) values; everything else is untouched. -/
def parsedProps (dateParse : String → Int) : Option Props → Option Props
  | none => none
  | some p =>
    match p.coordTimes with
    | some raw =>
      some { p with coordTimes := some ((raw.map (parseTime dateParse)).map TimeVal.num) }
    | none =>
      match p.times with
      | some raw =>
        some { p with times := some ((raw.map (parseTime dateParse)).map TimeVal.num) }
      | none =>
        match p.linestringTimestamps with
        | some raw =>
          let parsed := (raw.map (parseTime dateParse)).map TimeVal.num
          some { p with linestringTimestamps := some parsed }
        | none => some p

/-- A GeoJSON geometry object as seen by `_get_self_bounds`: the value under
the `coordinates` key, absent when the key is missing (the source reads it
with `.get('coordinates', {})`). -/
structure GJGeom where
  coordinates : Option CoordTree

/-- A GeoJSON feature as seen by `_get_self_bounds`: the value under the
`geometry` key, absent when the key is missing (the source reads it with
`.get('geometry', {})`). -/
structure GJFeature where
  geometry : Option GJGeom

/-- The parsed JSON data handed to `_get_self_bounds`, split by the key
checks of the source (lines 303-308): a feature collection (has a
`features` key), a bare feature (has a `geometry` key), or a bare
geometry (neither key). -/
inductive GeoData where
  | collection (features : List GJFeature)
  | feature (f : GJFeature)
  | geometry (g : GJGeom)

/-- Normalisation step of `_get_self_bounds` (source lines 303-308): a bare
geometry is wrapped as a feature (`{'type': 'Feature', 'geometry': data}`),
a bare feature is wrapped as a one-element collection, and a feature
collection is used as-is. -/
def normalizeData : GeoData → List GJFeature
  | .collection fs => fs
  | .feature f => [f]
  | .geometry g => [{ geometry := some g }]

mutual

/-- Modelled from the spec: `branca.utilities.iter_points` is not part of
this repository's sources.  Per §4.4 it recursively descends the coordinate
structure to the leaf level (single `[lon, lat]` pairs) regardless of nesting
depth, with missing or malformed shapes degrading by contributing no points
(§7) rather than erroring.  A node whose first child is a leaf is a single
point and yields its first two numbers as `(lon, lat)`; a node of nodes
recurses; anything else contributes nothing. -/
def iterPoints : CoordTree → List (Int × Int)
  | .leaf _ => []
  | .node l =>
    match l with
    | [] => []
    | .leaf a :: rest =>
      match rest with
      | .leaf b :: _ => [(a, b)]
      | _ => []
    | .node c :: rest => iterPointsList (.node c :: rest)

/-- Modelled from the spec: concatenation of `iterPoints` over a coordinate
list, the recursive case of `branca.utilities.iter_points`. -/
def iterPointsList : List CoordTree → List (Int × Int)
  | [] => []
  | c :: cs => iterPoints c ++ iterPointsList cs

end

/-- Modelled from the spec: `branca.utilities.none_min` is not part of this
repository's sources.  Per §4.4 an unset bound is treated as `+∞`, so the
first point always sets it; afterwards the running minimum is kept. -/
def none_min (x : Option Int) (y : Int) : Option Int :=
  match x with
  | none => some y
  | some a => some (min a y)

/-- Modelled from the spec: `branca.utilities.none_max` is not part of this
repository's sources.  Per §4.4 an unset bound is treated as `-∞`, so the
first point always sets it; afterwards the running maximum is kept. -/
def none_max (x : Option Int) (y : Int) : Option Int :=
  match x with
  | none => some y
  | some a => some (max a y)

/-- The leaf points contributed by one feature, following the source's
`iter_points(feature.get('geometry', {}).get('coordinates', {}))` with the
missing-key defaults contributing no points. -/
def featurePoints (f : GJFeature) : List (Int × Int) :=
  match f.geometry with
  | none => []
  | some g =>
    match g.coordinates with
    | none => []
    | some c => iterPoints c

/-- All leaf points of the normalised data, in feature order. -/
def allPoints (d : GeoData) : List (Int × Int) :=
  (normalizeData d).foldr (fun f acc => featurePoints f ++ acc) []

/-- A bounding box `[[lat_min, lon_min], [lat_max, lon_max]]` with unset
bounds as `none` (the source's `[[None, None], [None, None]]`). -/
def Bounds := (Option Int × Option Int) × (Option Int × Option Int)

/-- One folding step of the bounds loop (source lines 313-322): the box is
widened by a point `(lon, lat)`; the source indexes `point[1]` for latitude
and `point[0]` for longitude. -/
def foldPoint (b : Bounds) (p : Int × Int) : Bounds :=
  ((none_min b.1.1 p.2, none_min b.1.2 p.1), (none_max b.2.1 p.2, none_max b.2.2 p.1))

/-- The bounds computation of `_get_self_bounds` (source lines 302-323) on
already-parsed data: normalise, then fold every feature's points into the
running box starting from the fully unset box. -/
def selfBoundsBox (d : GeoData) : Bounds :=
  (normalizeData d).foldl (fun b f => (featurePoints f).foldl foldPoint b)
    ((none, none), (none, none))

/-- The `data` argument of `TimestampedGeoJson.__init__` (source lines
229-237), split by the branches of the constructor: a file-like object
(something with a `read` attribute), a dict, or a plain string. -/
inductive DataArg where
  | file (contents : String)
  | dict (d : GeoData)
  | str (s : String)

/-- The state of a `TimestampedGeoJson` instance relevant to bounds
computation: the embed flag and the stored data string.  The remaining
constructor state (player options, period, duration, template fields) is
never read by `_get_self_bounds` and is omitted. -/
structure TSGeoJson where
  embed : Bool
  data : String

/-- Translation of the data-handling part of `TimestampedGeoJson.__init__`
(source lines 229-237): a file-like argument is read and embedded, a dict is
serialised (`json.dumps`, modelled by the parameter `jsonDumps`) and
embedded, and a plain string is stored as-is with `embed = False`. -/
def tsInit (jsonDumps : GeoData → String) : DataArg → TSGeoJson
  | .file c => { embed := true, data := c }
  | .dict d => { embed := true, data := jsonDumps d }
  | .str s => { embed := false, data := s }

/-- Translation of `_get_self_bounds` (source lines 293-323): raises
`ValueError` (modelled as `Except.error`) when the data is not embedded,
otherwise parses the stored string (`json.loads`, modelled by the parameter
`jsonLoads`) and computes the box. -/
def get_self_bounds (jsonLoads : String → GeoData) (o : TSGeoJson) : Except String Bounds :=
  if o.embed = false then Except.error "Cannot compute bounds of non-embedded GeoJSON."
  else Except.ok (selfBoundsBox (jsonLoads o.data))

/-- First-index search returning `none` when no element satisfies the
predicate; used to characterise the scan loop of `_getFeatureBetweenDates`. -/
def findIdxO (p : Int → Bool) : List Int → Option Nat
  | [] => none
  | t :: ts => if p t then some 0 else (findIdxO p ts).map (· + 1)

/-- A degenerate `Date.parse` model mapping every string to `0`; concrete
scenarios below use numeric timestamps, so the parser choice is irrelevant
there. -/
def dpZero : String → Int := fun _ => 0

/-- A `Date.parse` model mapping every string to `7`, used to observe the
in-place string-to-number conversion. -/
def dpSeven : String → Int := fun _ => 7

/-- Scenario 1 feature: `times = [0, 86400000, 172800000]` with a
three-point LineString. -/
def s1Feature : Feature :=
  ⟨none,
   some ⟨none, some [.num 0, .num 86400000, .num 172800000], none, none⟩,
   ⟨"LineString", [.node [.leaf 0, .leaf 0], .node [.leaf 1, .leaf 1],
                   .node [.leaf 2, .leaf 2]]⟩⟩

/-- A feature whose only timestamp is `-1000000000000` (December 1938, a
negative pre-1970 epoch-ms value below the sentinel). -/
def c2Feature : Feature :=
  ⟨none, some ⟨none, some [.num (-1000000000000)], none, none⟩,
   ⟨"LineString", [.node [.leaf 0, .leaf 0]]⟩⟩

/-- A feature whose only timestamp is `-5` (negative but above the
sentinel). -/
def c2VisibleFeature : Feature :=
  ⟨none, some ⟨none, some [.num (-5)], none, none⟩,
   ⟨"LineString", [.node [.leaf 0, .leaf 0]]⟩⟩

/-- A feature whose `times` property holds a string timestamp, used to
observe the in-place conversion of the aliased property array. -/
def c7Feature : Feature :=
  ⟨none, some ⟨none, some [.str "a"], none, none⟩,
   ⟨"LineString", [.node [.leaf 0, .leaf 0]]⟩⟩

/-- A bare-point feature: coordinates `[lon, lat]` with no nesting. -/
def pointFeature : Feature :=
  ⟨none, some ⟨none, some [.num 5], none, none⟩,
   ⟨"Point", [.leaf 3, .leaf 4]⟩⟩

/-- A feature with no timestamp-bearing properties at all. -/
def noTimesFeature : Feature :=
  ⟨none, some ⟨none, none, none, none⟩,
   ⟨"LineString", [.node [.leaf 0, .leaf 0]]⟩⟩

/-- A feature with a non-empty time sequence but an empty coordinates
array. -/
def emptyCoordsFeature : Feature :=
  ⟨none, some ⟨none, some [.num 5], none, none⟩, ⟨"LineString", []⟩⟩

/-- Scenario 4 data: a bare MultiPolygon geometry with the single ring
`[[-10,-10],[-10,10],[10,10],[10,-10],[-10,-10]]`. -/
def scenario4Data : GeoData :=
  .geometry
    { coordinates := some (.node [.node [.node
        [.node [.leaf (-10), .leaf (-10)], .node [.leaf (-10), .leaf 10],
         .node [.leaf 10, .leaf 10], .node [.leaf 10, .leaf (-10)],
         .node [.leaf (-10), .leaf (-10)]]]]) }

theorem lastD_cons_cons (x y : Int) (r : List Int) : lastD (x :: y :: r) = lastD (y :: r) := rfl

theorem lastD_mem (l : List Int) (h : l ≠ []) : lastD l ∈ l := by
  induction l with
  | nil => exact absurd rfl h
  | cons x r ih =>
    cases r with
    | nil => simp [lastD]
    | cons y s =>
      rw [lastD_cons_cons]
      exact List.mem_cons_of_mem x (ih (by simp))

theorem headD0_mem (l : List Int) (h : l ≠ []) : headD0 l ∈ l := by
  cases l with
  | nil => exact absurd rfl h
  | cons x r => simp [headD0]

theorem le_lastD_of_chain' (l : List Int) (hc : List.Chain' (· ≤ ·) l) :
    ∀ a ∈ l, a ≤ lastD l := by
  induction l with
  | nil => intro a ha; cases ha
  | cons x r ih =>
    cases r with
    | nil =>
      intro a ha
      rw [List.mem_singleton] at ha
      subst ha
      simp [lastD]
    | cons y s =>
      rw [List.chain'_cons] at hc
      intro a ha
      rw [lastD_cons_cons]
      rcases List.mem_cons.mp ha with h1 | h2
      · subst h1
        exact le_trans hc.1 (ih hc.2 y (List.mem_cons_self y s))
      · exact ih hc.2 a h2

theorem findIdxO_getD (p : Int → Bool) (l : List Int) :
    (findIdxO p l).getD l.length = List.findIdx p l := by
  induction l with
  | nil => rfl
  | cons t ts ih =>
    by_cases h : p t
    · simp [findIdxO, h, List.findIdx_cons]
    · simp only [findIdxO, h, if_false, List.findIdx_cons, Bool.false_eq_true,
        List.length_cons]
      cases hfi : findIdxO p ts <;> simp [hfi] at ih ⊢ <;> omega

theorem findIdxO_isSome (p : Int → Bool) (l : List Int) (a : Int) (ha : a ∈ l)
    (hp : p a = true) : ∃ k, findIdxO p l = some k := by
  induction l with
  | nil => cases ha
  | cons t ts ih =>
    by_cases h : p t
    · exact ⟨0, by simp [findIdxO, h]⟩
    · rcases List.mem_cons.mp ha with h1 | hm
      · subst h1; exact absurd hp (by simp [h])
      · rcases ih hm with ⟨k, hk⟩
        exact ⟨k + 1, by simp [findIdxO, h, hk]⟩

theorem findIdx_eq_length_of_false (p : Int → Bool) (l : List Int)
    (hl : ∀ a ∈ l, p a = false) : List.findIdx p l = l.length := by
  induction l with
  | nil => rfl
  | cons a r ih =>
    have ha : p a = false := hl a (List.mem_cons_self a r)
    simp [List.findIdx_cons, ha, ih fun x hx => hl x (List.mem_cons_of_mem a hx)]

theorem scanLoop_snd (minT maxT : Int) (T : List Int) :
    ∀ (i : Nat) (im : Option Nat),
      (scanLoop minT maxT i im T).2 = (findIdxO (fun t => decide (maxT < t)) T).map (· + i) := by
  induction T with
  | nil => intro i im; rfl
  | cons t ts ih =>
    intro i im
    by_cases h : maxT < t
    · simp [scanLoop, h, findIdxO]
    · simp only [scanLoop, findIdxO, h, if_false, decide_eq_true_eq]
      rw [ih (i + 1)]
      cases findIdxO (fun t => decide (maxT < t)) ts <;> simp <;> omega

theorem scanLoop_fst_some (minT maxT : Int) (T : List Int) :
    ∀ (i v : Nat), (scanLoop minT maxT i (some v) T).1 = some v := by
  induction T with
  | nil => intro i v; rfl
  | cons t ts ih =>
    intro i v
    by_cases h : maxT < t
    · simp [scanLoop, h]
    · simp only [scanLoop, h, if_false]
      simpa using ih (i + 1) v

theorem scanLoop_fst_none (minT maxT : Int) (hab : minT ≤ maxT) (T : List Int) :
    ∀ i : Nat,
      (scanLoop minT maxT i none T).1 = (findIdxO (fun t => decide (minT < t)) T).map (· + i) := by
  induction T with
  | nil => intro i; rfl
  | cons t ts ih =>
    intro i
    by_cases hm : minT < t
    · by_cases hM : maxT < t
      · simp [scanLoop, hm, hM, findIdxO]
      · simp only [scanLoop, hm, hM, if_false, and_true]
        simp only [findIdxO, hm, if_true, decide_eq_true_eq]
        simpa using scanLoop_fst_some minT maxT ts (i + 1) i
    · have hM : ¬ maxT < t := fun h => hm (lt_of_le_of_lt hab h)
      simp only [scanLoop, hm, hM, if_false, and_false]
      rw [ih (i + 1)]
      simp only [findIdxO, hm, if_false, decide_eq_true_eq]
      cases findIdxO (fun t => decide (minT < t)) ts <;> simp <;> omega

theorem computeIndices_spec (T : List Int) (a b : Int) (hne : T ≠ [])
    (hc : List.Chain' (· ≤ ·) T) (hab : a ≤ b) :
    computeIndices T a b =
      ((if ∀ t ∈ T, t ≤ a then 0 else List.findIdx (fun t => decide (a < t)) T),
       List.findIdx (fun t => decide (b < t)) T) := by
  unfold computeIndices
  by_cases hg : a < lastD T
  · have hnall : ¬ ∀ t ∈ T, t ≤ a :=
      fun hall => absurd hg (not_lt.mpr (hall _ (lastD_mem T hne)))
    rw [if_pos hg, if_neg hnall]
    obtain ⟨k, hk⟩ := findIdxO_isSome (fun t => decide (a < t)) T (lastD T)
      (lastD_mem T hne) (decide_eq_true hg)
    have h1 := scanLoop_fst_none a b hab T 0
    have h2 := scanLoop_snd a b T 0 none
    have e1 : List.findIdx (fun t => decide (a < t)) T = k := by
      rw [← findIdxO_getD, hk]; rfl
    have e2 : (findIdxO (fun t => decide (b < t)) T).getD T.length =
        List.findIdx (fun t => decide (b < t)) T := findIdxO_getD _ T
    refine Prod.ext ?_ ?_
    · simp only [h1, hk, e1]
      rfl
    · simp only [h2, ← e2]
      cases findIdxO (fun t => decide (b < t)) T <;> rfl
  · have hall : ∀ t ∈ T, t ≤ a := by
      intro t ht
      exact le_trans (le_lastD_of_chain' T hc t ht) (not_lt.mp hg)
    rw [if_neg hg, if_pos hall]
    have hfb : List.findIdx (fun t => decide (b < t)) T = T.length := by
      refine findIdx_eq_length_of_false _ T (fun t ht => ?_)
      simp only [decide_eq_false_iff_not, not_lt]
      exact le_trans (hall t ht) hab
    simp [hfb]

theorem gft_geometry (dp : String → Int) (f : Feature) :
    ((getFeatureTimes dp f).2).geometry = f.geometry := by
  obtain ⟨ft, props, geom⟩ := f
  cases ft with
  | some ts => rfl
  | none =>
    cases props with
    | none => rfl
    | some p =>
      obtain ⟨ct, tm, ls, t1⟩ := p
      cases ct <;> cases tm <;> cases ls <;> cases t1 <;> rfl

theorem gft_cache (dp : String → Int) (f : Feature) :
    ((getFeatureTimes dp f).2).featureTimes = some ((getFeatureTimes dp f).1) := by
  obtain ⟨ft, props, geom⟩ := f
  cases ft with
  | some ts => rfl
  | none =>
    cases props with
    | none => rfl
    | some p =>
      obtain ⟨ct, tm, ls, t1⟩ := p
      cases ct <;> cases tm <;> cases ls <;> cases t1 <;> rfl

theorem gft_of_cached (dp : String → Int) (ft : List Int) (props : Option Props)
    (geom : Geometry) :
    getFeatureTimes dp ⟨some ft, props, geom⟩ = (ft, ⟨some ft, props, geom⟩) := rfl

theorem gft_props_of_uncached (dp : String → Int) (f : Feature)
    (h : f.featureTimes = none) :
    ((getFeatureTimes dp f).2).properties = parsedProps dp f.properties := by
  obtain ⟨ft, props, geom⟩ := f
  subst h
  cases props with
  | none => rfl
  | some p =>
    obtain ⟨ct, tm, ls, t1⟩ := p
    cases ct <;> cases tm <;> cases ls <;> cases t1 <;> rfl

theorem allnum_map_roundtrip (dp : String → Int) (raw : List TimeVal)
    (h : ∀ v ∈ raw, TimeVal.isStr v = false) :
    (raw.map (parseTime dp)).map TimeVal.num = raw := by
  induction raw with
  | nil => rfl
  | cons v vs ih =>
    cases v with
    | num n =>
      simp only [List.map_cons, parseTime]
      rw [ih fun x hx => h x (List.mem_cons_of_mem _ hx)]
    | str s => exact absurd (h _ (List.mem_cons_self _ _)) (by simp [TimeVal.isStr])

theorem parsedProps_of_allnum (dp : String → Int) (f : Feature)
    (h : ∀ v ∈ selectedRaw f, TimeVal.isStr v = false) :
    parsedProps dp f.properties = f.properties := by
  obtain ⟨ft, props, geom⟩ := f
  cases props with
  | none => rfl
  | some p =>
    obtain ⟨ct, tm, ls, t1⟩ := p
    cases ct with
    | some raw =>
      simp only [selectedRaw] at h
      simp only [parsedProps, allnum_map_roundtrip dp raw h]
    | none =>
      cases tm with
      | some raw =>
        simp only [selectedRaw] at h
        simp only [parsedProps, allnum_map_roundtrip dp raw h]
      | none =>
        cases ls with
        | some raw =>
          simp only [selectedRaw] at h
          simp only [parsedProps, allnum_map_roundtrip dp raw h]
        | none => cases t1 <;> rfl

theorem gfbd_empty (dp : String → Int) (f : Feature) (minT maxT : Int)
    (h : pureFeatureTimes dp f = []) :
    getFeatureBetweenDates dp f minT maxT = some (.original, (getFeatureTimes dp f).2) := by
  unfold getFeatureBetweenDates
  simp only [pureFeatureTimes] at h
  simp [h]

theorem gfbd_null (dp : String → Int) (f : Feature) (minT maxT : Int)
    (hne : pureFeatureTimes dp f ≠ [])
    (hout : maxT < headD0 (pureFeatureTimes dp f) ∨
      lastD (pureFeatureTimes dp f) < effectiveMin minT) :
    getFeatureBetweenDates dp f minT maxT = some (.null, (getFeatureTimes dp f).2) := by
  unfold getFeatureBetweenDates
  simp only [pureFeatureTimes] at hne hout
  rw [if_neg (by simpa [List.length_eq_zero] using hne), if_pos hout]

theorem gfbd_error (dp : String → Int) (f : Feature) (minT maxT : Int)
    (hne : pureFeatureTimes dp f ≠ [])
    (hout : ¬(maxT < headD0 (pureFeatureTimes dp f) ∨
      lastD (pureFeatureTimes dp f) < effectiveMin minT))
    (hco : f.geometry.coordinates = []) :
    getFeatureBetweenDates dp f minT maxT = none := by
  unfold getFeatureBetweenDates
  simp only [pureFeatureTimes] at hne hout
  rw [if_neg (by simpa [List.length_eq_zero] using hne), if_neg hout]
  simp [gft_geometry, hco]

theorem gfbd_fresh (dp : String → Int) (f : Feature) (minT maxT : Int)
    (hne : pureFeatureTimes dp f ≠ [])
    (hout : ¬(maxT < headD0 (pureFeatureTimes dp f) ∨
      lastD (pureFeatureTimes dp f) < effectiveMin minT))
    (c : CoordTree) (hc : f.geometry.coordinates.head? = some c) :
    getFeatureBetweenDates dp f minT maxT =
      some (.fresh
        { featureTimes := none
          properties := ((getFeatureTimes dp f).2).properties
          geometry :=
            { type := f.geometry.type
              coordinates :=
                match c with
                | .node l =>
                  if l.length ≠ 0 then
                    jsSlice f.geometry.coordinates
                      (computeIndices (pureFeatureTimes dp f) (effectiveMin minT) maxT).1
                      (computeIndices (pureFeatureTimes dp f) (effectiveMin minT) maxT).2
                  else f.geometry.coordinates
                | .leaf _ => f.geometry.coordinates } },
        (getFeatureTimes dp f).2) := by
  unfold getFeatureBetweenDates
  simp only [pureFeatureTimes] at hne hout ⊢
  rw [if_neg (by simpa [List.length_eq_zero] using hne), if_neg hout]
  simp only [gft_geometry, hc]
  cases c <;> rfl

/-- C1: for every feature whose resolved time sequence `T` is non-empty and
monotonically non-decreasing, and every window `[a, b]` with `a ≤ b` (where
`a` is the post-sentinel lower bound), `_getFeatureBetweenDates` returns
`null` if and only if `T[0] > b` or `T[last] < a`; otherwise the selected
index range is `[indexMin, indexMax)` with `indexMin` the first index whose
time exceeds `a` (`0` when no index does) and `indexMax` the first index
whose time exceeds `b` (`len T` when no index does).  In particular, for
`times = [0, 86400000, 172800000]` and window `[43200000, 129600000]` the
visible index range is `[1, 2)`, i.e. exactly index `1`. -/
theorem c1_window_filter_contract :
    (∀ (dp : String → Int) (f : Feature) (minTime maxTime : Int),
      pureFeatureTimes dp f ≠ [] →
      List.Chain' (· ≤ ·) (pureFeatureTimes dp f) →
      effectiveMin minTime ≤ maxTime →
      (((getFeatureBetweenDates dp f minTime maxTime).map Prod.fst = some FilterResult.null) ↔
        (maxTime < headD0 (pureFeatureTimes dp f) ∨
         lastD (pureFeatureTimes dp f) < effectiveMin minTime))
      ∧ computeIndices (pureFeatureTimes dp f) (effectiveMin minTime) maxTime =
          ((if ∀ t ∈ pureFeatureTimes dp f, t ≤ effectiveMin minTime then 0
            else List.findIdx (fun t => decide (effectiveMin minTime < t))
              (pureFeatureTimes dp f)),
           List.findIdx (fun t => decide (maxTime < t)) (pureFeatureTimes dp f)))
    ∧ computeIndices [0, 86400000, 172800000] 43200000 129600000 = (1, 2) := by
  constructor
  · intro dp f minTime maxTime hne hmono hab
    refine ⟨?_, computeIndices_spec _ _ _ hne hmono hab⟩
    by_cases hcond : (maxTime < headD0 (pureFeatureTimes dp f) ∨
        lastD (pureFeatureTimes dp f) < effectiveMin minTime)
    · rw [gfbd_null dp f _ _ hne hcond]
      simp [hcond]
    · have hnn : (getFeatureBetweenDates dp f minTime maxTime).map Prod.fst ≠
          some FilterResult.null := by
        rcases hh : f.geometry.coordinates.head? with _ | c
        · rw [gfbd_error dp f _ _ hne hcond (List.head?_eq_none_iff.mp hh)]
          simp
        · rw [gfbd_fresh dp f _ _ hne hcond c hh]
          simp
      simp only [hcond, iff_false]
      exact hnn
  · decide

/-- Witness for C1: the theorem applied to the Scenario 1 feature with the
window `[43200000, 129600000]`, whose hypotheses hold concretely; the extra
conjunct pins the resulting index range to `[1, 2)`. -/
theorem c1_window_filter_contract_witness :
    ((((getFeatureBetweenDates dpZero s1Feature 43200000 129600000).map Prod.fst =
        some FilterResult.null) ↔
      (129600000 < headD0 (pureFeatureTimes dpZero s1Feature) ∨
       lastD (pureFeatureTimes dpZero s1Feature) < effectiveMin 43200000))
    ∧ computeIndices (pureFeatureTimes dpZero s1Feature) (effectiveMin 43200000) 129600000 =
        ((if ∀ t ∈ pureFeatureTimes dpZero s1Feature, t ≤ effectiveMin 43200000 then 0
          else List.findIdx (fun t => decide (effectiveMin 43200000 < t))
            (pureFeatureTimes dpZero s1Feature)),
         List.findIdx (fun t => decide (129600000 < t)) (pureFeatureTimes dpZero s1Feature)))
    ∧ computeIndices (pureFeatureTimes dpZero s1Feature) (effectiveMin 43200000) 129600000 =
        (1, 2) :=
  ⟨c1_window_filter_contract.1 dpZero s1Feature 43200000 129600000
      (by decide) (by simp [pureFeatureTimes, getFeatureTimes, s1Feature, parseTime,
        List.chain'_cons]) (by decide),
   by decide⟩

/-- C2 counterexample: the feature `c2Feature` has the single timestamp
`-1000000000000`, which is negative (pre-1970 epoch-ms) and not greater than
`maxTime = 0`, yet `_getFeatureBetweenDates` with window `[0, 0]` rejects it
via the lower bound: the timestamp is below the substituted sentinel
`-999999999999`, so the claim as stated is false. -/
theorem c2_claim_counterexample :
    pureFeatureTimes dpZero c2Feature = [-1000000000000]
    ∧ (-1000000000000 : Int) < 0
    ∧ (-1000000000000 : Int) ≤ 0
    ∧ (getFeatureBetweenDates dpZero c2Feature 0 0).map Prod.fst =
        some FilterResult.null :=
  ⟨rfl, by decide, by decide, rfl⟩

/-- C2 (amended): a window whose `minTime` is exactly `0` behaves as if
`minTime` were the sentinel `-999999999999`; consequently a feature whose
timestamps are negative, not below the sentinel, and not greater than
`maxTime` is not rejected by the lower bound and remains visible (a fresh
feature is returned). -/
theorem c2_zero_mintime_sentinel :
    (∀ (dp : String → Int) (f : Feature) (maxTime : Int),
      getFeatureBetweenDates dp f 0 maxTime =
        getFeatureBetweenDates dp f (-999999999999) maxTime)
    ∧ (∀ (dp : String → Int) (f : Feature) (maxTime : Int),
      pureFeatureTimes dp f ≠ [] →
      (∀ t ∈ pureFeatureTimes dp f, t < 0 ∧ -999999999999 ≤ t ∧ t ≤ maxTime) →
      f.geometry.coordinates ≠ [] →
      ∃ g f₂, getFeatureBetweenDates dp f 0 maxTime =
        some (FilterResult.fresh g, f₂)) := by
  constructor
  · intro dp f maxTime
    have he : effectiveMin 0 = effectiveMin (-999999999999) := by
      simp [effectiveMin]
    unfold getFeatureBetweenDates
    rw [he]
  · intro dp f maxTime hne hbound hco
    have h1 := hbound _ (headD0_mem _ hne)
    have h2 := hbound _ (lastD_mem _ hne)
    have hout : ¬(maxTime < headD0 (pureFeatureTimes dp f) ∨
        lastD (pureFeatureTimes dp f) < effectiveMin 0) := by
      have he : effectiveMin 0 = -999999999999 := by simp [effectiveMin]
      rw [he]
      push_neg
      exact ⟨h1.2.2, h2.2.1⟩
    rcases hh : f.geometry.coordinates.head? with _ | c
    · exact absurd (List.head?_eq_none_iff.mp hh) hco
    · exact ⟨_, _, gfbd_fresh dp f 0 maxTime hne hout c hh⟩

/-- Witness for C2 (amended): the visibility part applied to a feature with
the single negative timestamp `-5` and window `[0, 0]`. -/
theorem c2_zero_mintime_sentinel_witness :
    ∃ g f₂, getFeatureBetweenDates dpZero c2VisibleFeature 0 0 =
      some (FilterResult.fresh g, f₂) :=
  c2_zero_mintime_sentinel.2 dpZero c2VisibleFeature 0 (by decide) (by decide)
    (by simp [c2VisibleFeature])

/-- C3: after the indices are computed, a feature whose coordinates form a
flat list of point coordinates (first element a non-empty array) gets
exactly `coordinates[indexMin:indexMax]` as the returned coordinates, while
a bare single point (first element a number, no nested array) is returned
with its coordinates unchanged, never sliced. -/
theorem c3_coordinate_slicing :
    ∀ (dp : String → Int) (f : Feature) (minTime maxTime : Int),
      pureFeatureTimes dp f ≠ [] →
      ¬(maxTime < headD0 (pureFeatureTimes dp f) ∨
        lastD (pureFeatureTimes dp f) < effectiveMin minTime) →
      (∀ l, f.geometry.coordinates.head? = some (CoordTree.node l) → l ≠ [] →
        filteredCoords dp f minTime maxTime =
          some (jsSlice f.geometry.coordinates
            (computeIndices (pureFeatureTimes dp f) (effectiveMin minTime) maxTime).1
            (computeIndices (pureFeatureTimes dp f) (effectiveMin minTime) maxTime).2))
      ∧ (∀ x, f.geometry.coordinates.head? = some (CoordTree.leaf x) →
        filteredCoords dp f minTime maxTime = some f.geometry.coordinates) := by
  intro dp f minTime maxTime hne hout
  constructor
  · intro l hl hlne
    unfold filteredCoords
    rw [gfbd_fresh dp f _ _ hne hout _ hl]
    have : l.length ≠ 0 := by simpa [List.length_eq_zero] using hlne
    simp [this]
  · intro x hx
    unfold filteredCoords
    rw [gfbd_fresh dp f _ _ hne hout _ hx]

/-- Witness for C3: the flat case on the Scenario 1 LineString (slicing to
the middle coordinate) and the bare-point case on a Point feature. -/
theorem c3_coordinate_slicing_witness :
    filteredCoords dpZero s1Feature 43200000 129600000 =
      some (jsSlice s1Feature.geometry.coordinates
        (computeIndices (pureFeatureTimes dpZero s1Feature) (effectiveMin 43200000) 129600000).1
        (computeIndices (pureFeatureTimes dpZero s1Feature) (effectiveMin 43200000) 129600000).2)
    ∧ filteredCoords dpZero pointFeature 1 10 = some pointFeature.geometry.coordinates :=
  ⟨(c3_coordinate_slicing dpZero s1Feature 43200000 129600000 (by decide)
      (by decide)).1 [CoordTree.leaf 0, CoordTree.leaf 0] rfl (by simp),
   (c3_coordinate_slicing dpZero pointFeature 1 10 (by decide)
      (by decide)).2 3 rfl⟩

/-- C4: a feature whose resolved time sequence is empty is returned as the
input feature object itself, for every window; the only state change is the
`featureTimes` cache write, so its properties and geometry are unchanged. -/
theorem c4_empty_times_passthrough :
    ∀ (dp : String → Int) (f : Feature) (minTime maxTime : Int),
      pureFeatureTimes dp f = [] →
      getFeatureBetweenDates dp f minTime maxTime =
        some (FilterResult.original, (getFeatureTimes dp f).2)
      ∧ ((getFeatureTimes dp f).2).properties = f.properties
      ∧ ((getFeatureTimes dp f).2).geometry = f.geometry := by
  intro dp f minTime maxTime h
  refine ⟨gfbd_empty dp f minTime maxTime h, ?_, gft_geometry dp f⟩
  obtain ⟨ft, props, geom⟩ := f
  cases ft with
  | some ts => rfl
  | none =>
    cases props with
    | none => rfl
    | some p =>
      obtain ⟨ct, tm, ls, t1⟩ := p
      cases ct with
      | some raw =>
        simp only [pureFeatureTimes, getFeatureTimes, List.map_eq_nil_iff] at h
        subst h
        rfl
      | none =>
        cases tm with
        | some raw =>
          simp only [pureFeatureTimes, getFeatureTimes, List.map_eq_nil_iff] at h
          subst h
          rfl
        | none =>
          cases ls with
          | some raw =>
            simp only [pureFeatureTimes, getFeatureTimes, List.map_eq_nil_iff] at h
            subst h
            rfl
          | none =>
            cases t1 with
            | some tv => simp [pureFeatureTimes, getFeatureTimes] at h
            | none => rfl

/-- Witness for C4: a feature carrying none of the four timestamp
properties is passed through unchanged for the window `[1, 10]`. -/
theorem c4_empty_times_passthrough_witness :
    getFeatureBetweenDates dpZero noTimesFeature 1 10 =
      some (FilterResult.original, (getFeatureTimes dpZero noTimesFeature).2)
    ∧ ((getFeatureTimes dpZero noTimesFeature).2).properties = noTimesFeature.properties
    ∧ ((getFeatureTimes dpZero noTimesFeature).2).geometry = noTimesFeature.geometry :=
  c4_empty_times_passthrough dpZero noTimesFeature 1 10 (by decide)

/-- C5: `_getFeatureTimes` resolves the timestamp source in the fixed order
`coordTimes`, `times`, `linestringTimestamps`, `time` (first present key
wins), wraps the `time` property as a one-element sequence, and yields the
empty sequence when no key is present or the feature has no properties. -/
theorem c5_resolution_order :
    ∀ (dp : String → Int) (p : Props) (g : Geometry),
      (∀ raw, p.coordTimes = some raw →
        pureFeatureTimes dp ⟨none, some p, g⟩ = raw.map (parseTime dp))
      ∧ (∀ raw, p.coordTimes = none → p.times = some raw →
        pureFeatureTimes dp ⟨none, some p, g⟩ = raw.map (parseTime dp))
      ∧ (∀ raw, p.coordTimes = none → p.times = none →
        p.linestringTimestamps = some raw →
        pureFeatureTimes dp ⟨none, some p, g⟩ = raw.map (parseTime dp))
      ∧ (∀ tv, p.coordTimes = none → p.times = none →
        p.linestringTimestamps = none → p.time = some tv →
        pureFeatureTimes dp ⟨none, some p, g⟩ = [parseTime dp tv])
      ∧ (p.coordTimes = none → p.times = none → p.linestringTimestamps = none →
        p.time = none → pureFeatureTimes dp ⟨none, some p, g⟩ = [])
      ∧ pureFeatureTimes dp ⟨none, none, g⟩ = [] := by
  intro dp p g
  obtain ⟨ct, tm, ls, t1⟩ := p
  refine ⟨?_, ?_, ?_, ?_, ?_, rfl⟩
  · rintro raw rfl
    rfl
  · rintro raw rfl rfl
    rfl
  · rintro raw rfl rfl rfl
    rfl
  · rintro tv rfl rfl rfl rfl
    rfl
  · rintro rfl rfl rfl rfl
    rfl

/-- Witness for C5: the resolution order applied to a concrete properties
object where only `times` is present, resolving to that array parsed. -/
theorem c5_resolution_order_witness :
    pureFeatureTimes dpZero ⟨none, some ⟨none, some [TimeVal.num 5], none, none⟩,
      ⟨"LineString", []⟩⟩ = [TimeVal.num 5].map (parseTime dpZero) :=
  (c5_resolution_order dpZero ⟨none, some [TimeVal.num 5], none, none⟩
    ⟨"LineString", []⟩).2.1 [TimeVal.num 5] rfl rfl

theorem gfbd_some_snd (dp : String → Int) (f : Feature) (minT maxT : Int)
    (r : FilterResult) (f₂ : Feature)
    (h : getFeatureBetweenDates dp f minT maxT = some (r, f₂)) :
    f₂ = (getFeatureTimes dp f).2 := by
  by_cases h1 : pureFeatureTimes dp f = []
  · rw [gfbd_empty dp f minT maxT h1] at h
    simp only [Option.some.injEq, Prod.mk.injEq] at h
    exact h.2.symm
  · by_cases h2 : (maxT < headD0 (pureFeatureTimes dp f) ∨
        lastD (pureFeatureTimes dp f) < effectiveMin minT)
    · rw [gfbd_null dp f minT maxT h1 h2] at h
      simp only [Option.some.injEq, Prod.mk.injEq] at h
      exact h.2.symm
    · rcases hh : f.geometry.coordinates.head? with _ | c
      · rw [gfbd_error dp f minT maxT h1 h2 (List.head?_eq_none_iff.mp hh)] at h
        cases h
      · rw [gfbd_fresh dp f minT maxT h1 h2 c hh] at h
        simp only [Option.some.injEq, Prod.mk.injEq] at h
        exact h.2.symm

theorem gfbd_fresh_inv (dp : String → Int) (f : Feature) (minT maxT : Int)
    (g : Feature) (f₂ : Feature)
    (h : getFeatureBetweenDates dp f minT maxT = some (.fresh g, f₂)) :
    g.properties = ((getFeatureTimes dp f).2).properties
    ∧ g.geometry.type = f.geometry.type ∧ g.featureTimes = none := by
  by_cases h1 : pureFeatureTimes dp f = []
  · rw [gfbd_empty dp f minT maxT h1] at h
    simp at h
  · by_cases h2 : (maxT < headD0 (pureFeatureTimes dp f) ∨
        lastD (pureFeatureTimes dp f) < effectiveMin minT)
    · rw [gfbd_null dp f minT maxT h1 h2] at h
      simp at h
    · rcases hh : f.geometry.coordinates.head? with _ | c
      · rw [gfbd_error dp f minT maxT h1 h2 (List.head?_eq_none_iff.mp hh)] at h
        cases h
      · rw [gfbd_fresh dp f minT maxT h1 h2 c hh] at h
        simp only [Option.some.injEq, Prod.mk.injEq, FilterResult.fresh.injEq] at h
        rw [← h.1]
        exact ⟨rfl, rfl, rfl⟩

/-- C7 counterexample: applying the filter to `c7Feature` (whose `times`
property holds the string `"a"`) rewrites the contents of its properties in
place: the cached `featureTimes` array aliases `properties.times`, so the
string entry is replaced by its parsed numeric value and the post-state
properties differ from the input's. -/
theorem c7_claim_counterexample :
    (getFeatureBetweenDates dpSeven c7Feature 1 10).map (fun pr => pr.2.properties) =
      some (some ⟨none, some [TimeVal.num 7], none, none⟩)
    ∧ c7Feature.properties = some ⟨none, some [TimeVal.str "a"], none, none⟩
    ∧ some (some (⟨none, some [TimeVal.num 7], none, none⟩ : Props)) ≠
        some (some (⟨none, some [TimeVal.str "a"], none, none⟩ : Props)) :=
  ⟨rfl, rfl, by decide⟩

/-- C7 (amended): `apply` returns a newly built feature carrying the
post-state properties object and the same geometry type with only the
coordinates replaced, and mutates the input feature only through the
`featureTimes` cache write and, because that cache aliases the matched
timestamp property array, the in-place conversion of its string entries to
parsed milliseconds; with a cached feature the input is untouched, and with
purely numeric timestamps the properties contents are unchanged. -/
theorem c7_apply_frame_effects :
    ∀ (dp : String → Int) (f : Feature) (minTime maxTime : Int)
      (r : FilterResult) (f₂ : Feature),
      getFeatureBetweenDates dp f minTime maxTime = some (r, f₂) →
      f₂.geometry = f.geometry
      ∧ f₂.featureTimes = some (pureFeatureTimes dp f)
      ∧ (∀ ts, f.featureTimes = some ts → f₂ = f)
      ∧ (f.featureTimes = none → f₂.properties = parsedProps dp f.properties)
      ∧ ((∀ v ∈ selectedRaw f, TimeVal.isStr v = false) → f₂.properties = f.properties)
      ∧ (∀ g, r = FilterResult.fresh g →
          g.properties = f₂.properties ∧ g.geometry.type = f.geometry.type ∧
          g.featureTimes = none) := by
  intro dp f minTime maxTime r f₂ h
  have hsnd := gfbd_some_snd dp f minTime maxTime r f₂ h
  subst hsnd
  refine ⟨gft_geometry dp f, gft_cache dp f, ?_, gft_props_of_uncached dp f, ?_, ?_⟩
  · intro ts hts
    obtain ⟨ft, props, geom⟩ := f
    simp only at hts
    subst hts
    rfl
  · intro hnum
    rcases hft : f.featureTimes with _ | ts
    · rw [gft_props_of_uncached dp f hft]
      exact parsedProps_of_allnum dp f hnum
    · obtain ⟨ft, props, geom⟩ := f
      simp only at hft
      subst hft
      rfl
  · intro g hg
    subst hg
    exact gfbd_fresh_inv dp f minTime maxTime g _ h

/-- Witness for C7 (amended): the frame conditions instantiated on the
Scenario 1 feature and its concrete filter run. -/
theorem c7_apply_frame_effects_witness :
    ((getFeatureBetweenDates dpZero s1Feature 43200000 129600000).map Prod.snd =
      some ((getFeatureTimes dpZero s1Feature).2))
    ∧ ((getFeatureTimes dpZero s1Feature).2).geometry = s1Feature.geometry
    ∧ ((getFeatureTimes dpZero s1Feature).2).properties = s1Feature.properties := by
  have h : getFeatureBetweenDates dpZero s1Feature 43200000 129600000 =
      some (FilterResult.fresh
        { featureTimes := none
          properties := ((getFeatureTimes dpZero s1Feature).2).properties
          geometry := { type := "LineString", coordinates := [.node [.leaf 1, .leaf 1]] } },
        (getFeatureTimes dpZero s1Feature).2) := rfl
  have hc := c7_apply_frame_effects dpZero s1Feature 43200000 129600000 _ _ h
  refine ⟨?_, hc.1, hc.2.2.2.2.1 (by decide)⟩
  rw [h]
  rfl

/-- C8: resolving the time sequence twice on the same feature instance
yields the same result, and the second call is a pure cache read: its result
does not depend on the timestamp parser at all, so nothing is re-parsed
(this also holds when the cached sequence is empty). -/
theorem c8_memoized_resolution :
    ∀ (dp dp2 : String → Int) (f : Feature),
      getFeatureTimes dp2 ((getFeatureTimes dp f).2) =
        ((getFeatureTimes dp f).1, (getFeatureTimes dp f).2) := by
  intro dp dp2 f
  have hc := gft_cache dp f
  rcases hs : (getFeatureTimes dp f).2 with ⟨ft2, p2, g2⟩
  rw [hs] at hc
  simp only at hc
  subst hc
  rfl

/-- C10 (implicit): `_getFeatureBetweenDates` is total whenever the
feature's coordinates array is non-empty, but for a feature with a
non-empty time sequence, an empty coordinates array, and a window that does
not reject it outright, the unconditional `coordinates[0].length` read
fails: non-empty coordinates is an unstated precondition. -/
theorem c10_empty_coordinates_partiality :
    (∀ (dp : String → Int) (f : Feature) (minTime maxTime : Int),
      f.geometry.coordinates ≠ [] →
      (getFeatureBetweenDates dp f minTime maxTime).isSome = true)
    ∧ (∀ (dp : String → Int) (f : Feature) (minTime maxTime : Int),
      pureFeatureTimes dp f ≠ [] → f.geometry.coordinates = [] →
      ¬(maxTime < headD0 (pureFeatureTimes dp f) ∨
        lastD (pureFeatureTimes dp f) < effectiveMin minTime) →
      getFeatureBetweenDates dp f minTime maxTime = none) := by
  constructor
  · intro dp f minTime maxTime hco
    by_cases h1 : pureFeatureTimes dp f = []
    · rw [gfbd_empty dp f minTime maxTime h1]
      rfl
    · by_cases h2 : (maxTime < headD0 (pureFeatureTimes dp f) ∨
          lastD (pureFeatureTimes dp f) < effectiveMin minTime)
      · rw [gfbd_null dp f minTime maxTime h1 h2]
        rfl
      · rcases hh : f.geometry.coordinates.head? with _ | c
        · exact absurd (List.head?_eq_none_iff.mp hh) hco
        · rw [gfbd_fresh dp f minTime maxTime h1 h2 c hh]
          rfl
  · exact fun dp f minTime maxTime h1 hco h2 => gfbd_error dp f minTime maxTime h1 h2 hco

/-- Witness for C10: with window `[1, 10]`, the filter succeeds on the
Scenario 1 feature (non-empty coordinates) and hits the error branch on a
feature with times `[5]` but an empty coordinates array. -/
theorem c10_empty_coordinates_partiality_witness :
    (getFeatureBetweenDates dpZero s1Feature 1 10).isSome = true
    ∧ getFeatureBetweenDates dpZero emptyCoordsFeature 1 10 = none :=
  ⟨c10_empty_coordinates_partiality.1 dpZero s1Feature 1 10 (by simp [s1Feature]),
   c10_empty_coordinates_partiality.2 dpZero emptyCoordsFeature 1 10
     (by decide) rfl (by decide)⟩

theorem foldl_none_min_some (l : List Int) : ∀ a : Int,
    l.foldl none_min (some a) = some (l.foldl min a) := by
  induction l with
  | nil => intro a; rfl
  | cons t ts ih =>
    intro a
    simp only [List.foldl_cons, none_min]
    exact ih (min a t)

theorem foldl_none_min_none (l : List Int) : l.foldl none_min none = l.min? := by
  cases l with
  | nil => rfl
  | cons a as =>
    simp only [List.foldl_cons, none_min]
    exact foldl_none_min_some as a

theorem foldl_none_max_some (l : List Int) : ∀ a : Int,
    l.foldl none_max (some a) = some (l.foldl max a) := by
  induction l with
  | nil => intro a; rfl
  | cons t ts ih =>
    intro a
    simp only [List.foldl_cons, none_max]
    exact ih (max a t)

theorem foldl_none_max_none (l : List Int) : l.foldl none_max none = l.max? := by
  cases l with
  | nil => rfl
  | cons a as =>
    simp only [List.foldl_cons, none_max]
    exact foldl_none_max_some as a

theorem foldl_foldPoint_decomp (pts : List (Int × Int)) : ∀ b : Bounds,
    pts.foldl foldPoint b =
      ((pts.foldl (fun o p => none_min o p.2) b.1.1,
        pts.foldl (fun o p => none_min o p.1) b.1.2),
       (pts.foldl (fun o p => none_max o p.2) b.2.1,
        pts.foldl (fun o p => none_max o p.1) b.2.2)) := by
  induction pts with
  | nil => intro b; rfl
  | cons p ps ih =>
    intro b
    simp only [List.foldl_cons]
    exact ih (foldPoint b p)

theorem foldl_features_append (fs : List GJFeature) : ∀ b : Bounds,
    fs.foldl (fun b f => (featurePoints f).foldl foldPoint b) b =
      (fs.foldr (fun f acc => featurePoints f ++ acc) []).foldl foldPoint b := by
  induction fs with
  | nil => intro b; rfl
  | cons f fs' ih =>
    intro b
    simp only [List.foldl_cons, List.foldr_cons, List.foldl_append]
    exact ih ((featurePoints f).foldl foldPoint b)

theorem proj_foldl_min_snd (pts : List (Int × Int)) :
    pts.foldl (fun o p => none_min o p.2) none = (pts.map Prod.snd).min? := by
  rw [← foldl_none_min_none, List.foldl_map]

theorem proj_foldl_min_fst (pts : List (Int × Int)) :
    pts.foldl (fun o p => none_min o p.1) none = (pts.map Prod.fst).min? := by
  rw [← foldl_none_min_none, List.foldl_map]

theorem proj_foldl_max_snd (pts : List (Int × Int)) :
    pts.foldl (fun o p => none_max o p.2) none = (pts.map Prod.snd).max? := by
  rw [← foldl_none_max_none, List.foldl_map]

theorem proj_foldl_max_fst (pts : List (Int × Int)) :
    pts.foldl (fun o p => none_max o p.1) none = (pts.map Prod.fst).max? := by
  rw [← foldl_none_max_none, List.foldl_map]

/-- C6: `_get_self_bounds` first normalises the data (bare geometry wrapped
as a feature, bare feature as a one-element collection, a collection
used as-is) and then returns exactly the box
`[[lat_min, lon_min], [lat_max, lon_max]]` given by the pointwise minimum
and maximum over every leaf `[lon, lat]` pair of every feature's coordinate
tree (the first point always setting an unset bound, features without
geometry contributing nothing and raising no error); in particular the
Scenario 4 MultiPolygon ring yields the box `[[-10, -10], [10, 10]]`. -/
theorem c6_bounds_box :
    (∀ d : GeoData, selfBoundsBox d =
      ((((allPoints d).map Prod.snd).min?, ((allPoints d).map Prod.fst).min?),
       (((allPoints d).map Prod.snd).max?, ((allPoints d).map Prod.fst).max?)))
    ∧ selfBoundsBox scenario4Data = ((some (-10), some (-10)), (some 10, some 10)) := by
  constructor
  · intro d
    unfold selfBoundsBox allPoints
    rw [foldl_features_append, foldl_foldPoint_decomp]
    rw [proj_foldl_min_snd, proj_foldl_min_fst, proj_foldl_max_snd, proj_foldl_max_fst]
  · rfl

/-- C9: an instance constructed from a plain string stores the data by
reference (`embed = False`) and `_get_self_bounds` raises
`ValueError('Cannot compute bounds of non-embedded GeoJSON.')` on it, while
instances constructed from a file-like object or a dict are embedded
(`embed = True`) and bounds computation returns a box rather than raising
on that ground. -/
theorem c9_embed_gate :
    ∀ (jsonLoads : String → GeoData) (jsonDumps : GeoData → String),
      (∀ s : String, get_self_bounds jsonLoads (tsInit jsonDumps (DataArg.str s)) =
        Except.error "Cannot compute bounds of non-embedded GeoJSON.")
      ∧ (∀ c : String, get_self_bounds jsonLoads (tsInit jsonDumps (DataArg.file c)) =
          Except.ok (selfBoundsBox (jsonLoads c)))
      ∧ (∀ d : GeoData, get_self_bounds jsonLoads (tsInit jsonDumps (DataArg.dict d)) =
          Except.ok (selfBoundsBox (jsonLoads (jsonDumps d))))
      ∧ (∀ s : String, (tsInit jsonDumps (DataArg.str s)).embed = false)
      ∧ (∀ c : String, (tsInit jsonDumps (DataArg.file c)).embed = true)
      ∧ (∀ d : GeoData, (tsInit jsonDumps (DataArg.dict d)).embed = true) :=
  fun _ _ =>
    ⟨fun _ => rfl, fun _ => rfl, fun _ => rfl, fun _ => rfl, fun _ => rfl, fun _ => rfl⟩
